import Mathlib

/-!
# Verification of MHwPlistSplitter

A shallow embedding of the core pipeline of `MHwPlistSplitter.py`:
plist parsing (`parse_plist`), rectangle-string parsing
(`parse_rect_string`), and the per-sprite splitting loop
(`split_sprites`).  Python strings are modelled as `List Char` / `String`,
Python dictionaries as association lists in insertion order, Python
floats of decimal numerals as exact values (`PyFloat`, with a rational
denotation), and exceptions as `Except String`.

The imaging library (Pillow) and the standard library (`pathlib`,
`float`) are external to the repository; their operations used by the
code (`Image.crop`, `Image.save`, `Path.stem`, `float`) are modelled
from their documented semantics, as noted on each definition.
-/

namespace MHwPlistSplitter

/-! ## Plist values

`plistlib.load` produces nested Python values.  We model the value
shapes the program manipulates: strings, integers, arrays, and
dictionaries (as association lists in insertion order, matching the
insertion-order iteration of Python dicts). -/

inductive PValue where
  | str : String → PValue
  | int : Int → PValue
  | arr : List PValue → PValue
  | dict : List (String × PValue) → PValue

/-- First-match lookup in an association list (Python dict lookup;
keys of a Python dict are unique, so first-match agrees with it). -/
def alookup (k : String) : List (String × PValue) → Option PValue
  | [] => none
  | (k', v) :: rest => if k' = k then some v else alookup k rest

/-- Whether a `PValue` equals the Python string `k` (used for `in` on lists). -/
def pvIsStr (k : String) : PValue → Bool
  | .str s => s = k
  | _ => false

/-- Substring test on character lists: some tail of `cs` starts with `sub`. -/
def containsSub (sub cs : List Char) : Bool :=
  cs.tails.any (fun t => sub.isPrefixOf t)

/-- The Python membership test `k in v`.  On a dict it tests key
membership, on a string it is a substring test, on a list it compares
`k` with the elements, and on an integer it raises `TypeError`. -/
def pyIn (k : String) : PValue → Except String Bool
  | .dict kvs => .ok (alookup k kvs).isSome
  | .str s => .ok (containsSub k.toList s.toList)
  | .arr vs => .ok (vs.any (pvIsStr k))
  | .int _ => .error "TypeError: argument of type 'int' is not iterable"

/-- The Python subscript `v[k]` with a string key.  Only dicts support
it; a missing key raises `KeyError`, other shapes raise `TypeError`. -/
def pySub : PValue → String → Except String PValue
  | .dict kvs, k =>
    match alookup k kvs with
    | some v => .ok v
    | none => .error ("KeyError: " ++ k)
  | .str _, _ => .error "TypeError: string indices must be integers"
  | .arr _, _ => .error "TypeError: list indices must be integers"
  | .int _, _ => .error "TypeError: 'int' object is not subscriptable"

/-- `parse_plist` (lines 50–61): after `plistlib.load`, return
`plist_data['frames']` when the key `'frames'` is present, else
`plist_data['metadata']['frames']` when `'metadata'` is present and
`'frames' in plist_data['metadata']`, else raise
`ValueError("Unsupported plist format")`. -/
def parse_plist (plist_data : PValue) : Except String PValue :=
  match pyIn "frames" plist_data with
  | .error e => .error e
  | .ok true => pySub plist_data "frames"
  | .ok false =>
    match pyIn "metadata" plist_data with
    | .error e => .error e
    | .ok true =>
      match pySub plist_data "metadata" with
      | .error e => .error e
      | .ok md =>
        match pyIn "frames" md with
        | .error e => .error e
        | .ok true =>
          match pySub plist_data "metadata" with
          | .error e => .error e
          | .ok md' => pySub md' "frames"
        | .ok false => .error "ValueError: Unsupported plist format"
    | .ok false => .error "ValueError: Unsupported plist format"

/-! ## Python string primitives

`str.strip(chars)`, `str.split(sep)` and `float(s)` as used by
`parse_rect_string`, modelled on `List Char`. -/

/-- Python `s.strip(chars)`: remove all leading and trailing characters
that belong to `strip`. -/
def pyStrip (strip cs : List Char) : List Char :=
  ((cs.dropWhile (strip.contains ·)).reverse.dropWhile (strip.contains ·)).reverse

/-- Worker for `splitOnSub`; `fuel` bounds the recursion depth (any
`fuel ≥ cs.length` gives the intended result). -/
def splitOnSubAux (sep : List Char) : ℕ → List Char → List (List Char)
  | _, [] => [[]]
  | 0, cs => [cs]
  | fuel + 1, c :: rest =>
    if sep.isPrefixOf (c :: rest) then
      [] :: splitOnSubAux sep fuel (rest.drop (sep.length - 1))
    else
      match splitOnSubAux sep fuel rest with
      | [] => [[c]]
      | p :: ps => (c :: p) :: ps

/-- Python `s.split(sep)` for a non-empty separator: split at each
leftmost non-overlapping occurrence of `sep`.  (`"".split(sep) = [""]`.) -/
def splitOnSub (sep cs : List Char) : List (List Char) :=
  if sep.isEmpty then [cs] else splitOnSubAux sep cs.length cs

/-- Strip leading and trailing whitespace (Python `str.strip()`,
performed by `float` on its argument). -/
def trimWs (cs : List Char) : List Char :=
  ((cs.dropWhile (·.isWhitespace)).reverse.dropWhile (·.isWhitespace)).reverse

/-- Value of a digit string (most significant first). -/
def digitsToNat (cs : List Char) : ℕ :=
  cs.foldl (fun a c => 10 * a + (c.toNat - 48)) 0

/-- The value a Python `float` call produces for a decimal numeral,
kept exact: the numeral with sign `neg`, digit string of value `mant`
and `fdigits` digits after the decimal point, denoting
`± mant / 10 ^ fdigits`. -/
structure PyFloat where
  neg : Bool
  mant : ℕ
  fdigits : ℕ
deriving DecidableEq

/-- The rational value denoted by a `PyFloat`. -/
def PyFloat.val (f : PyFloat) : ℚ :=
  (if f.neg then -1 else 1) * (f.mant : ℚ) / (10 : ℚ) ^ f.fdigits

/-- Python `int(x)` applied to the float: truncation toward zero
(for a non-negative numeral, the value of its integer digits). -/
def PyFloat.trunc (f : PyFloat) : ℤ :=
  if f.neg then -((f.mant / 10 ^ f.fdigits : ℕ) : ℤ)
  else ((f.mant / 10 ^ f.fdigits : ℕ) : ℤ)

/-- Modelled from the Python builtin `float` (external to the repo) on
unsigned decimal numerals `digits [. digits]` (at least one digit),
kept exact as mantissa and fraction-digit count.  Exponents,
`inf`/`nan`, and digit underscores are outside the inputs considered
here. -/
def pyFloatBody (cs : List Char) : Option (ℕ × ℕ) :=
  let ip := cs.takeWhile (·.isDigit)
  let rest := cs.dropWhile (·.isDigit)
  match rest with
  | [] => if ip.isEmpty then none else some (digitsToNat ip, 0)
  | '.' :: fp =>
    if fp.all (·.isDigit) && !(ip.isEmpty && fp.isEmpty) then
      some (digitsToNat ip * 10 ^ fp.length + digitsToNat fp, fp.length)
    else none
  | _ => none

/-- Python `float(s)`: strip surrounding whitespace, allow an optional
sign, then an unsigned numeral (see `pyFloatBody`). -/
def pyFloatL (cs : List Char) : Option PyFloat :=
  match trimWs cs with
  | '+' :: rest => (pyFloatBody rest).map (fun m => ⟨false, m.1, m.2⟩)
  | '-' :: rest => (pyFloatBody rest).map (fun m => ⟨true, m.1, m.2⟩)
  | t => (pyFloatBody t).map (fun m => ⟨false, m.1, m.2⟩)

/-- The characters stripped by `strip('{}')`. -/
def braceChars : List Char := ['{', '}']

/-- The separator of the rect-string grammar: closing brace, comma, opening brace. -/
def sepChars : List Char := ['}', ',', '{']

/-- One half of the rect string: `part.strip('{}').split(',')` must give
exactly two tokens and both must convert with `float`; models
`x, y = map(float, parts[i].strip('{}').split(','))`, where any
deviation raises a per-entry `ValueError`. -/
def parse_pair (part : List Char) : Option (PyFloat × PyFloat) :=
  match splitOnSub [','] (pyStrip braceChars part) with
  | [a, b] =>
    match pyFloatL a, pyFloatL b with
    | some x, some y => some (x, y)
    | _, _ => none
  | _ => none

/-- `parse_rect_string` (lines 64–75): strip outer braces, split on the
literal brace-comma-brace separator; with exactly two parts, parse each as a comma pair of
floats and truncate to integers, otherwise raise
`ValueError(f"Cannot parse rect string: {rect_str}")` (the message uses
the already-stripped string, as the source rebinds `rect_str`). -/
def parse_rect_string (s : String) : Except String (ℤ × ℤ × ℤ × ℤ) :=
  match splitOnSub sepChars (pyStrip braceChars s.toList) with
  | [p0, p1] =>
    match parse_pair p0, parse_pair p1 with
    | some (x, y), some (w, h) => .ok (x.trunc, y.trunc, w.trunc, h.trunc)
    | _, _ => .error "ValueError: could not convert string to float"
  | _ => .error ("Cannot parse rect string: " ++ String.mk (pyStrip braceChars s.toList))

/-! ## Images

Pillow is external to the repository; `Image.crop` is modelled from its
documented semantics: a crop box may extend beyond the image (the
out-of-range region reads as zero / transparent), while an inverted box
raises `ValueError`.  `Image.save` has no failure mode in this model
(the filesystem is environment). -/

/-- A decoded raster image: dimensions plus a pixel-reading function
(reads outside `[0, width) × [0, height)` are not used for the source
image; cropped images define them as zero). -/
structure PImage where
  width : ℕ
  height : ℕ
  pixel : ℤ → ℤ → ℕ

/-- `img.crop((left, upper, right, lower))` per Pillow: raises
`ValueError` when the box is inverted, otherwise returns a new
`(right-left) × (lower-upper)` buffer whose out-of-range pixels are
zero (transparent). -/
def crop (img : PImage) (left upper right lower : ℤ) : Except String PImage :=
  if right < left then .error "ValueError: Coordinate 'right' is less than 'left'"
  else if lower < upper then .error "ValueError: Coordinate 'lower' is less than 'upper'"
  else .ok
    { width := (right - left).toNat
      height := (lower - upper).toNat
      pixel := fun i j =>
        if 0 ≤ left + i ∧ left + i < (img.width : ℤ) ∧ 0 ≤ upper + j ∧ upper + j < (img.height : ℤ)
        then img.pixel (left + i) (upper + j) else 0 }

/-- The crop call of line 116: `img.crop((x, y, x + w, y + h))`. -/
def cropRect (img : PImage) (r : ℤ × ℤ × ℤ × ℤ) : Except String PImage :=
  crop img r.1 r.2.1 (r.1 + r.2.2.1) (r.2.1 + r.2.2.2)

/-! ## Output filenames

Line 119: `sprite_filename = Path(sprite_name).stem + ".png"`.
`pathlib` is standard library; `Path(...).stem` is modelled from its
documented semantics (POSIX flavour): the final path component (empty
and `.` components dropped), with the final extension removed unless
the dot is the first or last character of the component. -/

/-- The final component of a path string (`Path(s).name` up to the
suffix): split on `/`, drop empty and `.` components, take the last. -/
def pathFinalComponent (cs : List Char) : List Char :=
  (((splitOnSub ['/'] cs).filter (fun c => !c.isEmpty && !(c == ['.']))).getLast?).getD []

/-- `Path(s).stem`: the final component with its last extension
removed; a dot at index 0 (hidden files) or at the very end is not an
extension separator. -/
def pyStemChars (s : String) : List Char :=
  let n := pathFinalComponent s.toList
  match ((n.enum.filter (fun p => p.2 == '.')).map (fun p => p.1)).getLast? with
  | some i => if 0 < i ∧ i < n.length - 1 then n.take i else n
  | none => n

/-- The derived output filename: `Path(sprite_name).stem + ".png"`. -/
def sprite_filename (sprite_name : String) : String :=
  String.mk (pyStemChars sprite_name) ++ ".png"

/-! ## The splitting loop -/

/-- The outcome the loop body of `split_sprites` records for one frames
entry it does not skip: a saved file (`print(f"Saved: ...")`,
`count += 1`) or a caught per-entry exception
(`print(f"Error processing {sprite_name}: {e}")`). -/
inductive Outcome where
  | success : String → Outcome
  | failure : String → Outcome
deriving DecidableEq

/-- Lines 100–110: pick the rectangle string for one frames entry.  A
dict uses its `'frame'` key, else its `'textureRect'` key; a dict with
neither is skipped (`none`); a non-dict value is used directly. -/
def getFrameStr : PValue → Option PValue
  | .dict kvs =>
    match alookup "frame" kvs with
    | some fv => some fv
    | none =>
      match alookup "textureRect" kvs with
      | some fv => some fv
      | none => none
  | v => some v

/-- One iteration of the loop of `split_sprites` (lines 98–127) for
entry `(name, v)`: `none` when the entry is skipped, otherwise the
recorded outcome together with the file write it performs (filename and
saved buffer).  Calling `.strip` on a non-string rectangle value raises
`AttributeError`, caught by the per-entry handler. -/
def process_sprite (img : PImage) (name : String) (v : PValue) :
    Option (Outcome × Option (String × PImage)) :=
  match getFrameStr v with
  | none => none
  | some (.str s) =>
    match parse_rect_string s with
    | .error e => some (.failure e, none)
    | .ok r =>
      match cropRect img r with
      | .error e => some (.failure e, none)
      | .ok sprite =>
        some (.success (sprite_filename name), some (sprite_filename name, sprite))
  | some _ =>
    some (.failure "AttributeError: object has no attribute 'strip'", none)

/-- The outcome part of `process_sprite`. -/
def entryOutcome (img : PImage) (name : String) (v : PValue) : Option Outcome :=
  (process_sprite img name v).map (fun p => p.1)

/-- The sequence of per-entry results of the loop, in frames order;
skipped entries contribute nothing. -/
def extractResults (img : PImage) (kvs : List (String × PValue)) : List (String × Outcome) :=
  kvs.filterMap (fun e => (entryOutcome img e.1 e.2).map (fun o => (e.1, o)))

/-- The output directory contents: filename to saved buffer. -/
def Store := List (String × PImage)

/-- Writing a file: overwrite an existing entry of the same name, else
append. -/
def storeWrite (st : List (String × PImage)) (f : String) (im : PImage) :
    List (String × PImage) :=
  if st.any (fun kv => kv.1 = f) then
    st.map (fun kv => if kv.1 = f then (f, im) else kv)
  else st ++ [(f, im)]

/-- The files the loop leaves in the output directory after all
entries, starting from an empty directory. -/
def finalStore (img : PImage) (kvs : List (String × PValue)) : List (String × PImage) :=
  kvs.foldl
    (fun st e =>
      match process_sprite img e.1 e.2 with
      | some (_, some wr) => storeWrite st wr.1 wr.2
      | _ => st)
    []

/-- `split_sprites` (lines 78–129), past its I/O prologue: parse the
plist (a failure there propagates and aborts the run), iterate
`frames.items()` (a non-dict frames value raises `AttributeError`,
also fatal), and return the per-entry results and the written files. -/
def split_sprites (doc : PValue) (img : PImage) :
    Except String (List (String × Outcome) × List (String × PImage)) :=
  match parse_plist doc with
  | .error e => .error e
  | .ok (.dict kvs) => .ok (extractResults img kvs, finalStore img kvs)
  | .ok _ => .error "AttributeError: object has no attribute 'items'"

end MHwPlistSplitter

deriving instance DecidableEq for Except

namespace MHwPlistSplitter

/-! ## Lemmas about the string primitives -/

theorem containsSub_cons (sep : List Char) (c : Char) (rest : List Char) :
    containsSub sep (c :: rest) = (sep.isPrefixOf (c :: rest) || containsSub sep rest) := by
  simp [containsSub, List.tails_cons]

theorem containsSub_eq_false (s0 : Char) (stail cs : List Char)
    (h : ∀ ch ∈ cs, ch ≠ s0) : containsSub (s0 :: stail) cs = false := by
  induction cs with
  | nil => rfl
  | cons c rest ih =>
    rw [containsSub_cons]
    have hc : ((s0 :: stail).isPrefixOf (c :: rest)) = false := by
      apply Bool.eq_false_iff.mpr
      intro hpre
      obtain ⟨t, ht⟩ := List.isPrefixOf_iff_prefix.mp hpre
      have hc0 : s0 = c := by injection ht
      exact h c (by simp) hc0.symm
    rw [hc, ih (fun ch hm => h ch (by simp [hm]))]
    rfl

theorem dropWhile_append_all (f : Char → Bool) (p l : List Char)
    (hp : ∀ c ∈ p, f c = true) : (p ++ l).dropWhile f = l.dropWhile f := by
  induction p with
  | nil => rfl
  | cons c rest ih =>
    simp only [List.cons_append, List.dropWhile_cons, hp c (by simp)]
    exact ih (fun x hx => hp x (by simp [hx]))

theorem dropWhile_head_false (f : Char → Bool) (c : Char) (l : List Char)
    (hc : f c = false) : (c :: l).dropWhile f = c :: l := by
  simp [List.dropWhile_cons, hc]

theorem pyStrip_eq_self (strip cs : List Char)
    (h : ∀ c ∈ cs, strip.contains c = false) : pyStrip strip cs = cs := by
  have h1 : cs.dropWhile (strip.contains ·) = cs := by
    cases cs with
    | nil => rfl
    | cons c rest => exact dropWhile_head_false _ c rest (h c (by simp))
  have h2 : cs.reverse.dropWhile (strip.contains ·) = cs.reverse := by
    cases hrev : cs.reverse with
    | nil => rfl
    | cons c rest =>
      refine dropWhile_head_false _ c rest (h c ?_)
      have : c ∈ cs.reverse := by rw [hrev]; simp
      simpa using this
  unfold pyStrip
  rw [h1, h2, List.reverse_reverse]

theorem pyStrip_sandwich (strip p q core : List Char) (m0 mlast : Char)
    (hp : ∀ c ∈ p, strip.contains c = true)
    (hq : ∀ c ∈ q, strip.contains c = true)
    (h0 : strip.contains m0 = false)
    (h1 : strip.contains mlast = false) :
    pyStrip strip (p ++ (m0 :: (core ++ [mlast])) ++ q) = m0 :: (core ++ [mlast]) := by
  unfold pyStrip
  have step1 : (p ++ (m0 :: (core ++ [mlast])) ++ q).dropWhile (strip.contains ·)
      = m0 :: (core ++ [mlast]) ++ q := by
    rw [List.append_assoc, dropWhile_append_all _ p _ hp]
    exact dropWhile_head_false _ m0 _ h0
  rw [step1]
  have step2 : (m0 :: (core ++ [mlast]) ++ q).reverse
      = q.reverse ++ (mlast :: (core.reverse ++ [m0])) := by
    simp
  rw [step2]
  have step3 : (q.reverse ++ (mlast :: (core.reverse ++ [m0]))).dropWhile (strip.contains ·)
      = mlast :: (core.reverse ++ [m0]) := by
    rw [dropWhile_append_all _ _ _ (fun c hc => hq c (by simpa using hc))]
    exact dropWhile_head_false _ mlast _ h1
  rw [step3]
  simp

theorem splitOnSubAux_no_occ (sep : List Char) (fuel : ℕ) (cs : List Char)
    (hf : cs.length ≤ fuel) (h : containsSub sep cs = false) :
    splitOnSubAux sep fuel cs = [cs] := by
  induction cs generalizing fuel with
  | nil => cases fuel <;> rfl
  | cons c rest ih =>
    cases fuel with
    | zero => simp at hf
    | succ f =>
      rw [containsSub_cons] at h
      have h1 : sep.isPrefixOf (c :: rest) = false := by
        cases hp : sep.isPrefixOf (c :: rest) <;> simp_all
      have h2 : containsSub sep rest = false := by
        cases hp : containsSub sep rest <;> simp_all
      have hrec := ih f (by simp at hf; omega) h2
      simp only [splitOnSubAux, h1, Bool.false_eq_true, if_false, hrec]

theorem splitOnSubAux_mid (s0 : Char) (stail l r : List Char) (fuel : ℕ)
    (hf : (l ++ ((s0 :: stail) ++ r)).length ≤ fuel)
    (hl : ∀ ch ∈ l, ch ≠ s0)
    (hr : containsSub (s0 :: stail) r = false) :
    splitOnSubAux (s0 :: stail) fuel (l ++ ((s0 :: stail) ++ r)) = [l, r] := by
  induction l generalizing fuel with
  | nil =>
    simp only [List.nil_append] at hf ⊢
    cases fuel with
    | zero => simp at hf
    | succ f =>
      have hpre : (s0 :: stail).isPrefixOf (s0 :: (stail ++ r)) = true :=
        List.isPrefixOf_iff_prefix.mpr ⟨r, by simp⟩
      show splitOnSubAux (s0 :: stail) (f + 1) (s0 :: (stail ++ r)) = [[], r]
      simp only [splitOnSubAux, hpre, if_true]
      have hdrop : (stail ++ r).drop ((s0 :: stail).length - 1) = r := by
        simp only [List.length_cons, Nat.add_sub_cancel]
        exact List.drop_left stail r
      rw [hdrop, splitOnSubAux_no_occ _ f r (by simp at hf; omega) hr]
  | cons c l' ih =>
    cases fuel with
    | zero => simp at hf
    | succ f =>
      have hne : (s0 :: stail).isPrefixOf (c :: (l' ++ ((s0 :: stail) ++ r))) = false := by
        apply Bool.eq_false_iff.mpr
        intro hpre
        obtain ⟨t, ht⟩ := List.isPrefixOf_iff_prefix.mp hpre
        have : s0 = c := by injection ht
        exact hl c (by simp) this.symm
      have hrec := ih f (by simp at hf ⊢; omega) (fun ch hm => hl ch (by simp [hm]))
      show splitOnSubAux (s0 :: stail) (f + 1) (c :: (l' ++ ((s0 :: stail) ++ r))) = [c :: l', r]
      simp only [splitOnSubAux, hne, Bool.false_eq_true, if_false, hrec]

theorem splitOnSub_mid (s0 : Char) (stail l r : List Char)
    (hl : ∀ ch ∈ l, ch ≠ s0)
    (hr : containsSub (s0 :: stail) r = false) :
    splitOnSub (s0 :: stail) (l ++ ((s0 :: stail) ++ r)) = [l, r] := by
  unfold splitOnSub
  rw [if_neg (by simp)]
  exact splitOnSubAux_mid s0 stail l r _ le_rfl hl hr

/-! ## The rect-string grammar, generically -/

/-- A numeric token of the rect grammar: non-empty and free of braces
and commas, so it cannot interfere with the brace stripping and the
two splits. -/
def SafeTok (t : List Char) : Prop :=
  t ≠ [] ∧ ∀ ch ∈ t, ch ≠ '{' ∧ ch ≠ '}' ∧ ch ≠ ','

theorem safeTok_no_brace {t : List Char} (ht : SafeTok t) :
    ∀ ch ∈ t, braceChars.contains ch = false := by
  intro ch hm
  obtain ⟨h1, h2, h3⟩ := ht.2 ch hm
  simp [braceChars, h1, h2]

theorem parse_pair_concat (a b : List Char) (fa fb : PyFloat)
    (ta : SafeTok a) (tb : SafeTok b)
    (hfa : pyFloatL a = some fa) (hfb : pyFloatL b = some fb) :
    parse_pair (a ++ [','] ++ b) = some (fa, fb) := by
  have hstrip : pyStrip braceChars (a ++ [','] ++ b) = a ++ [','] ++ b := by
    apply pyStrip_eq_self
    intro ch hm
    simp only [List.mem_append, List.mem_singleton] at hm
    rcases hm with (hm | hm) | hm
    · exact safeTok_no_brace ta ch hm
    · simp [braceChars, hm]
    · exact safeTok_no_brace tb ch hm
  have hsplit : splitOnSub [','] (a ++ [','] ++ b) = [a, b] := by
    have := splitOnSub_mid ',' [] a b
      (fun ch hm => (ta.2 ch hm).2.2) (containsSub_eq_false ',' [] b (fun ch hm => (tb.2 ch hm).2.2))
    simpa using this
  unfold parse_pair
  rw [hstrip, hsplit]
  show (match pyFloatL a, pyFloatL b with
    | some x, some y => some (x, y)
    | _, _ => none) = some (fa, fb)
  rw [hfa, hfb]

theorem parse_rect_string_eq_of (s : String) (l r : List Char) (fa fb fc fd : PyFloat)
    (h : splitOnSub sepChars (pyStrip braceChars s.toList) = [l, r])
    (hl : parse_pair l = some (fa, fb)) (hr : parse_pair r = some (fc, fd)) :
    parse_rect_string s = .ok (fa.trunc, fb.trunc, fc.trunc, fd.trunc) := by
  unfold parse_rect_string
  rw [h]
  show (match parse_pair l, parse_pair r with
    | some (x, y), some (w, h) => Except.ok (x.trunc, y.trunc, w.trunc, h.trunc)
    | _, _ => Except.error "ValueError: could not convert string to float") =
    Except.ok (fa.trunc, fb.trunc, fc.trunc, fd.trunc)
  rw [hl, hr]

theorem parse_rect_string_concat
    (p q a b c d : List Char) (fa fb fc fd : PyFloat)
    (hp : ∀ ch ∈ p, braceChars.contains ch = true)
    (hq : ∀ ch ∈ q, braceChars.contains ch = true)
    (ta : SafeTok a) (tb : SafeTok b) (tc : SafeTok c) (td : SafeTok d)
    (hfa : pyFloatL a = some fa) (hfb : pyFloatL b = some fb)
    (hfc : pyFloatL c = some fc) (hfd : pyFloatL d = some fd) :
    parse_rect_string
      (String.mk (p ++ a ++ [','] ++ b ++ sepChars ++ c ++ [','] ++ d ++ q))
      = .ok (fa.trunc, fb.trunc, fc.trunc, fd.trunc) := by
  obtain ⟨a0, a', rfl⟩ : ∃ a0 a', a = a0 :: a' := by
    cases a with
    | nil => exact absurd rfl ta.1
    | cons x xs => exact ⟨x, xs, rfl⟩
  obtain ⟨dinit, dlast, rfl⟩ : ∃ dinit dlast, d = dinit ++ [dlast] := by
    rcases List.eq_nil_or_concat d with h | ⟨L, x, h⟩
    · exact absurd h td.1
    · exact ⟨L, x, by simpa using h⟩
  have ha0 : braceChars.contains a0 = false := safeTok_no_brace ta a0 (by simp)
  have hdlast : braceChars.contains dlast = false := safeTok_no_brace td dlast (by simp)
  have hstrip : pyStrip braceChars
      (p ++ (a0 :: a') ++ [','] ++ b ++ sepChars ++ c ++ [','] ++ (dinit ++ [dlast]) ++ q) =
      (a0 :: a') ++ [','] ++ b ++ sepChars ++ c ++ [','] ++ (dinit ++ [dlast]) := by
    have heq :
        p ++ (a0 :: a') ++ [','] ++ b ++ sepChars ++ c ++ [','] ++ (dinit ++ [dlast]) ++ q =
        p ++ (a0 :: ((a' ++ [','] ++ b ++ sepChars ++ c ++ [','] ++ dinit) ++ [dlast])) ++ q := by
      simp [List.append_assoc]
    have heq2 :
        (a0 :: ((a' ++ [','] ++ b ++ sepChars ++ c ++ [','] ++ dinit) ++ [dlast])) =
        (a0 :: a') ++ [','] ++ b ++ sepChars ++ c ++ [','] ++ (dinit ++ [dlast]) := by
      simp [List.append_assoc]
    rw [heq, pyStrip_sandwich braceChars p q _ a0 dlast hp hq ha0 hdlast, heq2]
  have hsplit : splitOnSub sepChars
      ((a0 :: a') ++ [','] ++ b ++ sepChars ++ c ++ [','] ++ (dinit ++ [dlast])) =
      [(a0 :: a') ++ [','] ++ b, c ++ [','] ++ (dinit ++ [dlast])] := by
    have hl : ∀ ch ∈ (a0 :: a') ++ [','] ++ b, ch ≠ '}' := by
      intro ch hm
      simp only [List.mem_append, List.mem_singleton] at hm
      rcases hm with (hm | hm) | hm
      · exact (ta.2 ch hm).2.1
      · simp [hm]
      · exact (tb.2 ch hm).2.1
    have hr : containsSub sepChars (c ++ [','] ++ (dinit ++ [dlast])) = false := by
      apply containsSub_eq_false
      intro ch hm
      simp only [List.mem_append, List.mem_singleton] at hm
      rcases hm with (hm | hm) | hm | hm
      · exact (tc.2 ch hm).2.1
      · simp [hm]
      · exact (td.2 ch (by simp [hm])).2.1
      · exact (td.2 ch (by simp [hm])).2.1
    have heq :
        (a0 :: a') ++ [','] ++ b ++ sepChars ++ c ++ [','] ++ (dinit ++ [dlast]) =
        ((a0 :: a') ++ [','] ++ b) ++ (sepChars ++ (c ++ [','] ++ (dinit ++ [dlast]))) := by
      simp [List.append_assoc]
    rw [heq]
    exact splitOnSub_mid '}' [',', '{'] _ _ hl hr
  have hpair1 := parse_pair_concat (a0 :: a') b fa fb ta tb hfa hfb
  have hpair2 := parse_pair_concat c (dinit ++ [dlast]) fc fd tc td hfc hfd
  apply parse_rect_string_eq_of _ _ _ fa fb fc fd _ hpair1 hpair2
  show splitOnSub sepChars (pyStrip braceChars
      (p ++ (a0 :: a') ++ [','] ++ b ++ sepChars ++ c ++ [','] ++ (dinit ++ [dlast]) ++ q)) = _
  rw [hstrip, hsplit]

/-- A non-negative decimal numeral, possibly with a fractional part:
only digits and dots, and accepted by the float parser. -/
def isNumeralStr (s : String) : Bool :=
  s.toList.all (fun c => c.isDigit || c == '.') && (pyFloatL s.toList).isSome

theorem safeTok_of_numeral (s : String) (h : isNumeralStr s = true) : SafeTok s.toList := by
  simp only [isNumeralStr, Bool.and_eq_true, List.all_eq_true] at h
  obtain ⟨hchars, hsome⟩ := h
  constructor
  · intro hnil
    rw [hnil] at hsome
    simp [pyFloatL, trimWs, pyFloatBody, List.dropWhile] at hsome
  · intro ch hm
    have := hchars ch hm
    rcases Bool.or_eq_true _ _ |>.mp this with hd | hdot
    · refine ⟨?_, ?_, ?_⟩ <;> (intro heq; rw [heq] at hd; simp at hd)
    · have : ch = '.' := by simpa using hdot
      subst this
      refine ⟨by decide, by decide, by decide⟩

theorem trimWs_eq_self (cs : List Char)
    (h : ∀ c ∈ cs, c.isWhitespace = false) : trimWs cs = cs := by
  have h1 : cs.dropWhile (·.isWhitespace) = cs := by
    cases cs with
    | nil => rfl
    | cons c rest => exact dropWhile_head_false _ c rest (h c (by simp))
  have h2 : cs.reverse.dropWhile (·.isWhitespace) = cs.reverse := by
    cases hrev : cs.reverse with
    | nil => rfl
    | cons c rest =>
      refine dropWhile_head_false _ c rest (h c ?_)
      have : c ∈ cs.reverse := by rw [hrev]; simp
      simpa using this
  unfold trimWs
  rw [h1, h2, List.reverse_reverse]

theorem trimWs_pad (t : List Char) (k m : ℕ) (hne : t ≠ [])
    (h : ∀ c ∈ t, c.isWhitespace = false) :
    trimWs (List.replicate k ' ' ++ t ++ List.replicate m ' ') = t := by
  obtain ⟨t0, t', rfl⟩ : ∃ t0 t', t = t0 :: t' := by
    cases t with
    | nil => exact absurd rfl hne
    | cons x xs => exact ⟨x, xs, rfl⟩
  obtain ⟨tinit, tlast, heq⟩ : ∃ tinit tlast, t0 :: t' = tinit ++ [tlast] := by
    rcases List.eq_nil_or_concat (t0 :: t') with hcon | ⟨L, x, hcon⟩
    · exact absurd hcon (by simp)
    · exact ⟨L, x, by simpa using hcon⟩
  have hws : (' ' : Char).isWhitespace = true := by decide
  have step1 : (List.replicate k ' ' ++ (t0 :: t') ++ List.replicate m ' ').dropWhile
      (·.isWhitespace) = (t0 :: t') ++ List.replicate m ' ' := by
    rw [List.append_assoc, dropWhile_append_all _ _ _
      (fun c hc => by rw [List.eq_of_mem_replicate hc]; exact hws)]
    exact dropWhile_head_false _ t0 _ (h t0 (by simp))
  unfold trimWs
  rw [step1]
  have step2 : ((t0 :: t') ++ List.replicate m ' ').reverse
      = List.replicate m ' ' ++ (tlast :: tinit.reverse) := by
    rw [List.reverse_append, List.reverse_replicate, heq]
    simp
  rw [step2]
  have step3 : (List.replicate m ' ' ++ (tlast :: tinit.reverse)).dropWhile (·.isWhitespace)
      = tlast :: tinit.reverse := by
    rw [dropWhile_append_all _ _ _
      (fun c hc => by rw [List.eq_of_mem_replicate hc]; exact hws)]
    exact dropWhile_head_false _ tlast _ (h tlast (by rw [heq]; simp))
  rw [step3]
  rw [show (tlast :: tinit.reverse) = (tinit ++ [tlast]).reverse by simp]
  rw [List.reverse_reverse, heq]

theorem pyFloatL_pad (t : List Char) (k m : ℕ) (hne : t ≠ [])
    (h : ∀ c ∈ t, c.isWhitespace = false) :
    pyFloatL (List.replicate k ' ' ++ t ++ List.replicate m ' ') = pyFloatL t := by
  unfold pyFloatL
  rw [trimWs_pad t k m hne h, trimWs_eq_self t h]

/-! ## Claim theorems -/

/-- C2: for every well-formed rectangle string `"{{x,y},{w,h}}"` whose
four components are non-negative numerals (possibly with fractional
parts), `parse_rect_string` returns the 4-tuple obtained by parsing
each component as a (decimal, kept exact) floating-point number and
truncating — not rounding — it to an integer. -/
theorem rect_numerals_truncate (a b c d : String) (fa fb fc fd : PyFloat)
    (ha : isNumeralStr a = true) (hb : isNumeralStr b = true)
    (hc : isNumeralStr c = true) (hd : isNumeralStr d = true)
    (hfa : pyFloatL a.toList = some fa) (hfb : pyFloatL b.toList = some fb)
    (hfc : pyFloatL c.toList = some fc) (hfd : pyFloatL d.toList = some fd) :
    parse_rect_string ("\x7b\x7b" ++ a ++ "," ++ b ++ "\x7d,\x7b" ++ c ++ "," ++ d ++ "\x7d\x7d")
      = .ok (fa.trunc, fb.trunc, fc.trunc, fd.trunc) := by
  have h := parse_rect_string_concat ['{', '{'] ['}', '}']
    a.toList b.toList c.toList d.toList fa fb fc fd
    (by decide) (by decide)
    (safeTok_of_numeral a ha) (safeTok_of_numeral b hb)
    (safeTok_of_numeral c hc) (safeTok_of_numeral d hd)
    hfa hfb hfc hfd
  have harg : ("\x7b\x7b" ++ a ++ "," ++ b ++ "\x7d,\x7b" ++ c ++ "," ++ d ++ "\x7d\x7d") =
      String.mk (['{', '{'] ++ a.toList ++ [','] ++ b.toList ++ sepChars
        ++ c.toList ++ [','] ++ d.toList ++ ['}', '}']) := by
    apply String.ext
    simp [sepChars]
  rw [harg]
  exact h

/-- C2 witness: the spec's own example, `"{{1,2},{3.9,4.1}}"`, parses
to `(1, 2, 3, 4)` — truncation, not rounding. -/
theorem rect_numerals_truncate_witness :
    isNumeralStr "1" = true ∧ isNumeralStr "2" = true ∧
    isNumeralStr "3.9" = true ∧ isNumeralStr "4.1" = true ∧
    parse_rect_string "{{1,2},{3.9,4.1}}" = .ok (1, 2, 3, 4) := by
  refine ⟨by decide, by decide, by decide, by decide, ?_⟩
  have h := rect_numerals_truncate "1" "2" "3.9" "4.1"
    ⟨false, 1, 0⟩ ⟨false, 2, 0⟩ ⟨false, 39, 1⟩ ⟨false, 41, 1⟩
    (by decide) (by decide) (by decide) (by decide)
    (by decide) (by decide) (by decide) (by decide)
  have harg : ("\x7b\x7b" ++ "1" ++ "," ++ "2" ++ "\x7d,\x7b" ++ "3.9" ++ "," ++ "4.1" ++ "\x7d\x7d") =
      "{{1,2},{3.9,4.1}}" := by decide
  rw [harg] at h
  exact h.trans (by decide)

/-- C10: `parse_rect_string` strips every leading and trailing brace
character, not just one layer: for any prefix `p` and suffix `q` made
of brace characters around a well-formed inner rect body, parsing
succeeds and yields the same 4-tuple as the canonical
`"{{a,b},{c,d}}"` form. -/
theorem rect_outer_braces_insensitive (p q : List Char) (a b c d : String)
    (fa fb fc fd : PyFloat)
    (hp : ∀ ch ∈ p, ch = '{' ∨ ch = '}') (hq : ∀ ch ∈ q, ch = '{' ∨ ch = '}')
    (ha : isNumeralStr a = true) (hb : isNumeralStr b = true)
    (hc : isNumeralStr c = true) (hd : isNumeralStr d = true)
    (hfa : pyFloatL a.toList = some fa) (hfb : pyFloatL b.toList = some fb)
    (hfc : pyFloatL c.toList = some fc) (hfd : pyFloatL d.toList = some fd) :
    parse_rect_string (String.mk (p ++ a.toList ++ [','] ++ b.toList ++ sepChars
        ++ c.toList ++ [','] ++ d.toList ++ q))
      = .ok (fa.trunc, fb.trunc, fc.trunc, fd.trunc) ∧
    parse_rect_string ("\x7b\x7b" ++ a ++ "," ++ b ++ "\x7d,\x7b" ++ c ++ "," ++ d ++ "\x7d\x7d")
      = .ok (fa.trunc, fb.trunc, fc.trunc, fd.trunc) := by
  have hbr : ∀ (l : List Char), (∀ ch ∈ l, ch = '{' ∨ ch = '}') →
      ∀ ch ∈ l, braceChars.contains ch = true := by
    intro l hl ch hm
    rcases hl ch hm with h | h <;> simp [braceChars, h]
  constructor
  · exact parse_rect_string_concat p q a.toList b.toList c.toList d.toList fa fb fc fd
      (hbr p hp) (hbr q hq)
      (safeTok_of_numeral a ha) (safeTok_of_numeral b hb)
      (safeTok_of_numeral c hc) (safeTok_of_numeral d hd)
      hfa hfb hfc hfd
  · have h := parse_rect_string_concat ['{', '{'] ['}', '}']
      a.toList b.toList c.toList d.toList fa fb fc fd
      (by decide) (by decide)
      (safeTok_of_numeral a ha) (safeTok_of_numeral b hb)
      (safeTok_of_numeral c hc) (safeTok_of_numeral d hd)
      hfa hfb hfc hfd
    have harg : ("\x7b\x7b" ++ a ++ "," ++ b ++ "\x7d,\x7b" ++ c ++ "," ++ d ++ "\x7d\x7d") =
        String.mk (['{', '{'] ++ a.toList ++ [','] ++ b.toList ++ sepChars
          ++ c.toList ++ [','] ++ d.toList ++ ['}', '}']) := by
      apply String.ext
      simp [sepChars]
    rw [harg]
    exact h

/-- C10 witness: `"{{{1,2},{3,4}}}"` (extra outer braces) and
`"{1,2},{3,4}"` (missing outer braces) both parse to `(1, 2, 3, 4)`,
the value of the canonical form. -/
theorem rect_outer_braces_insensitive_witness :
    (∀ ch ∈ ['{', '{', '{'], ch = '{' ∨ ch = '}') ∧
    (∀ ch ∈ ['{'], ch = '{' ∨ ch = '}') ∧
    parse_rect_string "{{{1,2},{3,4}}}" = .ok (1, 2, 3, 4) ∧
    parse_rect_string "{1,2},{3,4}" = .ok (1, 2, 3, 4) ∧
    parse_rect_string "{{1,2},{3,4}}" = .ok (1, 2, 3, 4) := by
  refine ⟨by decide, by decide, ?_, ?_, ?_⟩
  · have h := (rect_outer_braces_insensitive ['{', '{', '{'] ['}', '}', '}'] "1" "2" "3" "4"
      ⟨false, 1, 0⟩ ⟨false, 2, 0⟩ ⟨false, 3, 0⟩ ⟨false, 4, 0⟩
      (by decide) (by decide) (by decide) (by decide) (by decide) (by decide)
      (by decide) (by decide) (by decide) (by decide)).1
    have harg : String.mk (['{', '{', '{'] ++ "1".toList ++ [','] ++ "2".toList ++ sepChars
        ++ "3".toList ++ [','] ++ "4".toList ++ ['}', '}', '}']) = "{{{1,2},{3,4}}}" := by decide
    rw [harg] at h
    exact h.trans (by decide)
  · have h := (rect_outer_braces_insensitive ['{'] ['}'] "1" "2" "3" "4"
      ⟨false, 1, 0⟩ ⟨false, 2, 0⟩ ⟨false, 3, 0⟩ ⟨false, 4, 0⟩
      (by decide) (by decide) (by decide) (by decide) (by decide) (by decide)
      (by decide) (by decide) (by decide) (by decide)).1
    have harg : String.mk (['{'] ++ "1".toList ++ [','] ++ "2".toList ++ sepChars
        ++ "3".toList ++ [','] ++ "4".toList ++ ['}']) = "{1,2},{3,4}" := by decide
    rw [harg] at h
    exact h.trans (by decide)
  · have h := (rect_outer_braces_insensitive ['{', '{'] ['}', '}'] "1" "2" "3" "4"
      ⟨false, 1, 0⟩ ⟨false, 2, 0⟩ ⟨false, 3, 0⟩ ⟨false, 4, 0⟩
      (by decide) (by decide) (by decide) (by decide) (by decide) (by decide)
      (by decide) (by decide) (by decide) (by decide)).1
    have harg : String.mk (['{', '{'] ++ "1".toList ++ [','] ++ "2".toList ++ sepChars
        ++ "3".toList ++ [','] ++ "4".toList ++ ['}', '}']) = "{{1,2},{3,4}}" := by decide
    rw [harg] at h
    exact h.trans (by decide)

theorem numeral_no_ws (s : String) (h : isNumeralStr s = true) :
    ∀ c ∈ s.toList, c.isWhitespace = false := by
  simp only [isNumeralStr, Bool.and_eq_true, List.all_eq_true] at h
  intro c hm
  rcases Bool.or_eq_true _ _ |>.mp (h.1 c hm) with hd | hdot
  · cases hw : c.isWhitespace
    · rfl
    · exfalso
      simp only [Char.isWhitespace, Bool.or_eq_true, decide_eq_true_eq] at hw
      rcases hw with ((h1 | h1) | h1) | h1 <;> (subst h1; simp at hd)
  · have : c = '.' := by simpa using hdot
    subst this
    decide

theorem safeTok_pad_numeral (s : String) (k m : ℕ) (h : isNumeralStr s = true) :
    SafeTok (List.replicate k ' ' ++ s.toList ++ List.replicate m ' ') ∧
    pyFloatL (List.replicate k ' ' ++ s.toList ++ List.replicate m ' ')
      = pyFloatL s.toList := by
  have hst := safeTok_of_numeral s h
  have hnws := numeral_no_ws s h
  refine ⟨⟨?_, ?_⟩, pyFloatL_pad s.toList k m hst.1 hnws⟩
  · intro heq
    have : s.toList = [] := by
      rcases List.append_eq_nil.mp heq with ⟨h3, _⟩
      exact (List.append_eq_nil.mp h3).2
    exact hst.1 this
  · intro ch hm
    simp only [List.mem_append] at hm
    rcases hm with (hm | hm) | hm
    · rw [List.eq_of_mem_replicate hm]; refine ⟨by decide, by decide, by decide⟩
    · exact hst.2 ch hm
    · rw [List.eq_of_mem_replicate hm]; refine ⟨by decide, by decide, by decide⟩

/-- C8 counterexample: the claim fails — whitespace adjacent to a
brace is not accepted.  A space between `}` and the separator comma
(`"{{1,2} ,{3,4}}"`) breaks the separator split, and a space before the
outer braces (`" {{1,2},{3,4}}"`) survives the brace stripping and
makes the float conversion fail, while the whitespace-free form
parses; in both failing cases the entry errors rather than parsing to
the same 4-tuple. -/
theorem rect_ws_around_braces_cex :
    parse_rect_string "{{1,2} ,{3,4}}" = .error "Cannot parse rect string: 1,2\x7d ,\x7b3,4" ∧
    parse_rect_string " {{1,2},{3,4}}" = .error "ValueError: could not convert string to float" ∧
    parse_rect_string "{{1,2},{3,4}}" = .ok (1, 2, 3, 4) :=
  ⟨by decide, by decide, by decide⟩

/-- C8 amended: whitespace is accepted around the numeric components
(Python `float` strips it), yielding the same 4-tuple as the
whitespace-free form, for any amounts of padding; but whitespace
adjacent to the braces — before the outer braces or inside the
brace-comma-brace separator — makes parsing of that rect string fail. -/
theorem rect_ws_around_numbers (a b c d : String)
    (l1 r1 l2 r2 l3 r3 l4 r4 : ℕ) (fa fb fc fd : PyFloat)
    (ha : isNumeralStr a = true) (hb : isNumeralStr b = true)
    (hc : isNumeralStr c = true) (hd : isNumeralStr d = true)
    (hfa : pyFloatL a.toList = some fa) (hfb : pyFloatL b.toList = some fb)
    (hfc : pyFloatL c.toList = some fc) (hfd : pyFloatL d.toList = some fd) :
    parse_rect_string (String.mk (['{', '{']
      ++ (List.replicate l1 ' ' ++ a.toList ++ List.replicate r1 ' ') ++ [',']
      ++ (List.replicate l2 ' ' ++ b.toList ++ List.replicate r2 ' ') ++ sepChars
      ++ (List.replicate l3 ' ' ++ c.toList ++ List.replicate r3 ' ') ++ [',']
      ++ (List.replicate l4 ' ' ++ d.toList ++ List.replicate r4 ' ') ++ ['}', '}']))
      = .ok (fa.trunc, fb.trunc, fc.trunc, fd.trunc) ∧
    parse_rect_string "{{1,2} ,{3,4}}" = .error "Cannot parse rect string: 1,2\x7d ,\x7b3,4" ∧
    parse_rect_string " {{1,2},{3,4}}"
      = .error "ValueError: could not convert string to float" := by
  obtain ⟨ta, hfa'⟩ := safeTok_pad_numeral a l1 r1 ha
  obtain ⟨tb, hfb'⟩ := safeTok_pad_numeral b l2 r2 hb
  obtain ⟨tc, hfc'⟩ := safeTok_pad_numeral c l3 r3 hc
  obtain ⟨td, hfd'⟩ := safeTok_pad_numeral d l4 r4 hd
  refine ⟨?_, by decide, by decide⟩
  have h := parse_rect_string_concat ['{', '{'] ['}', '}']
    (List.replicate l1 ' ' ++ a.toList ++ List.replicate r1 ' ')
    (List.replicate l2 ' ' ++ b.toList ++ List.replicate r2 ' ')
    (List.replicate l3 ' ' ++ c.toList ++ List.replicate r3 ' ')
    (List.replicate l4 ' ' ++ d.toList ++ List.replicate r4 ' ')
    fa fb fc fd (by decide) (by decide) ta tb tc td
    (hfa'.trans hfa) (hfb'.trans hfb) (hfc'.trans hfc) (hfd'.trans hfd)
  exact h

/-- C8 amended witness: `"{{ 1 , 2 },{ 3 , 4 }}"` — single spaces
around every numeric token — parses to `(1, 2, 3, 4)`. -/
theorem rect_ws_around_numbers_witness :
    isNumeralStr "1" = true ∧ isNumeralStr "2" = true ∧
    isNumeralStr "3" = true ∧ isNumeralStr "4" = true ∧
    parse_rect_string "{{ 1 , 2 },{ 3 , 4 }}" = .ok (1, 2, 3, 4) := by
  refine ⟨by decide, by decide, by decide, by decide, ?_⟩
  have h := (rect_ws_around_numbers "1" "2" "3" "4" 1 1 1 1 1 1 1 1
    ⟨false, 1, 0⟩ ⟨false, 2, 0⟩ ⟨false, 3, 0⟩ ⟨false, 4, 0⟩
    (by decide) (by decide) (by decide) (by decide)
    (by decide) (by decide) (by decide) (by decide)).1
  have harg : String.mk (['{', '{']
      ++ (List.replicate 1 ' ' ++ "1".toList ++ List.replicate 1 ' ') ++ [',']
      ++ (List.replicate 1 ' ' ++ "2".toList ++ List.replicate 1 ' ') ++ sepChars
      ++ (List.replicate 1 ' ' ++ "3".toList ++ List.replicate 1 ' ') ++ [',']
      ++ (List.replicate 1 ' ' ++ "4".toList ++ List.replicate 1 ' ') ++ ['}', '}'])
      = "{{ 1 , 2 },{ 3 , 4 }}" := by decide
  rw [harg] at h
  exact h.trans (by decide)

/-- A fixed concrete 4×4 source image used by the concrete instances. -/
def testImg : PImage := ⟨4, 4, fun i j => (i + j).toNat⟩

/-- C4: for every frames payload, the flat layout `{"frames": p}` and
the nested layout `{"metadata": {"frames": p}}` parse to the same
descriptor, and the flat key is tried first: a document carrying both
layouts uses the flat `frames` value. -/
theorem parse_plist_layout_equiv (p q : PValue) :
    parse_plist (.dict [("frames", p)]) = .ok p ∧
    parse_plist (.dict [("metadata", .dict [("frames", q)])]) = .ok q ∧
    parse_plist (.dict [("frames", p), ("metadata", .dict [("frames", q)])]) = .ok p :=
  ⟨rfl, rfl, rfl⟩

/-- Following the spec's words: the top-level key path `frames`
resolves to a mapping. -/
def specFramesResolvesToMapping (kvs : List (String × PValue)) : Bool :=
  match alookup "frames" kvs with
  | some (.dict _) => true
  | _ => false

/-- Following the spec's words: the key path `metadata` → `frames`
resolves to a mapping. -/
def specNestedFramesResolvesToMapping (kvs : List (String × PValue)) : Bool :=
  match alookup "metadata" kvs with
  | some (.dict mkvs) =>
    match alookup "frames" mkvs with
    | some (.dict _) => true
    | _ => false
  | _ => false

/-- C3 counterexample: for the document `{"frames": "x"}` neither key
path resolves to a mapping, yet `parse_plist` does not fail — it
returns the string.  The code tests key presence, not that the value
is a mapping, so "fails exactly when neither key path resolves to a
mapping" is false. -/
theorem unsupported_format_cex :
    specFramesResolvesToMapping [("frames", PValue.str "x")] = false ∧
    specNestedFramesResolvesToMapping [("frames", PValue.str "x")] = false ∧
    parse_plist (.dict [("frames", .str "x")]) = .ok (.str "x") :=
  ⟨rfl, rfl, rfl⟩

/-- C3 amended: `parse_plist` fails with
`ValueError("Unsupported plist format")` exactly when the top-level
dict has no key `frames` and its `metadata` value, when present, does
not contain `frames` (by the Python `in` test) — key presence, not
resolving to a mapping, is what is checked.  And whenever `parse_plist`
fails, `split_sprites` propagates that error: the failure is fatal to
the whole run, not per-entry. -/
theorem unsupported_format_iff (kvs : List (String × PValue)) (d : PValue)
    (img : PImage) (e : String) :
    (parse_plist (.dict kvs) = .error "ValueError: Unsupported plist format" ↔
      alookup "frames" kvs = none ∧
        ∀ md, alookup "metadata" kvs = some md → pyIn "frames" md = .ok false) ∧
    (parse_plist d = .error e → split_sprites d img = .error e) := by
  constructor
  · cases hf : alookup "frames" kvs with
    | some v =>
      have hred : parse_plist (.dict kvs) = .ok v := by
        simp only [parse_plist, pyIn, pySub, hf, Option.isSome_some]
      rw [hred]
      constructor
      · intro h; exact Except.noConfusion h
      · rintro ⟨h, -⟩; exact Option.noConfusion h
    | none =>
      cases hm : alookup "metadata" kvs with
      | none =>
        have hred : parse_plist (.dict kvs)
            = .error "ValueError: Unsupported plist format" := by
          simp only [parse_plist, pyIn, pySub, hf, hm, Option.isSome_none]
        rw [hred]
        refine ⟨fun _ => ⟨rfl, ?_⟩, fun _ => rfl⟩
        rintro md h
        exact Option.noConfusion h
      | some md =>
        cases md with
        | int n =>
          have hred : parse_plist (.dict kvs)
              = .error "TypeError: argument of type 'int' is not iterable" := by
            simp only [parse_plist, pyIn, pySub, hf, hm, Option.isSome_none,
              Option.isSome_some]
          rw [hred]
          constructor
          · intro h
            injection h with h'
            exact absurd h' (by decide)
          · rintro ⟨-, hall⟩
            have h := hall (.int n) rfl
            exact Except.noConfusion h
        | str s =>
          cases hsub : containsSub "frames".toList s.toList with
          | true =>
            have hred : parse_plist (.dict kvs)
                = .error "TypeError: string indices must be integers" := by
              simp only [parse_plist, pyIn, pySub, hf, hm, Option.isSome_none,
                Option.isSome_some, hsub]
            rw [hred]
            constructor
            · intro h
              injection h with h'
              exact absurd h' (by decide)
            · rintro ⟨-, hall⟩
              have h := hall (.str s) rfl
              simp only [pyIn, hsub] at h
              injection h with h'
              exact Bool.noConfusion h'
          | false =>
            have hred : parse_plist (.dict kvs)
                = .error "ValueError: Unsupported plist format" := by
              simp only [parse_plist, pyIn, pySub, hf, hm, Option.isSome_none,
                Option.isSome_some, hsub]
            rw [hred]
            refine ⟨fun _ => ⟨rfl, ?_⟩, fun _ => rfl⟩
            rintro md h
            injection h with h'
            rw [← h']
            simp only [pyIn, hsub]
        | arr vs =>
          cases hsub : vs.any (pvIsStr "frames") with
          | true =>
            have hred : parse_plist (.dict kvs)
                = .error "TypeError: list indices must be integers" := by
              simp only [parse_plist, pyIn, pySub, hf, hm, Option.isSome_none,
                Option.isSome_some, hsub]
            rw [hred]
            constructor
            · intro h
              injection h with h'
              exact absurd h' (by decide)
            · rintro ⟨-, hall⟩
              have h := hall (.arr vs) rfl
              simp only [pyIn, hsub] at h
              injection h with h'
              exact Bool.noConfusion h'
          | false =>
            have hred : parse_plist (.dict kvs)
                = .error "ValueError: Unsupported plist format" := by
              simp only [parse_plist, pyIn, pySub, hf, hm, Option.isSome_none,
                Option.isSome_some, hsub]
            rw [hred]
            refine ⟨fun _ => ⟨rfl, ?_⟩, fun _ => rfl⟩
            rintro md h
            injection h with h'
            rw [← h']
            simp only [pyIn, hsub]
        | dict mkvs =>
          cases hmf : alookup "frames" mkvs with
          | some fv =>
            have hred : parse_plist (.dict kvs) = .ok fv := by
              simp only [parse_plist, pyIn, pySub, hf, hm, Option.isSome_none,
                Option.isSome_some, hmf]
            rw [hred]
            constructor
            · intro h; exact Except.noConfusion h
            · rintro ⟨-, hall⟩
              have h := hall (.dict mkvs) rfl
              simp only [pyIn, hmf] at h
              injection h with h'
              exact Bool.noConfusion h'
          | none =>
            have hred : parse_plist (.dict kvs)
                = .error "ValueError: Unsupported plist format" := by
              simp only [parse_plist, pyIn, pySub, hf, hm, Option.isSome_none,
                Option.isSome_some, hmf]
            rw [hred]
            refine ⟨fun _ => ⟨rfl, ?_⟩, fun _ => rfl⟩
            rintro md h
            injection h with h'
            rw [← h']
            simp only [pyIn, hmf, Option.isSome_none]
  · intro h
    unfold split_sprites
    rw [h]

/-- C3 witness: a document with neither key path (the empty dict)
fails with the format error, and `split_sprites` aborts with that same
error. -/
theorem unsupported_format_iff_witness :
    parse_plist (PValue.dict []) = .error "ValueError: Unsupported plist format" ∧
    split_sprites (PValue.dict []) testImg
      = .error "ValueError: Unsupported plist format" :=
  ⟨rfl, (unsupported_format_iff [] (PValue.dict []) testImg
    "ValueError: Unsupported plist format").2 rfl⟩

/-- C5: for every frame-info value, a mapping uses its `frame` key,
else its `textureRect` key, as the rectangle string; a non-mapping
value is used directly; a mapping with neither key is skipped — it
contributes no result, and the surrounding entries are processed
unchanged (no abort). -/
theorem frame_key_dispatch (kvs : List (String × PValue)) (v fv : PValue)
    (img : PImage) (n : String) (pre post : List (String × PValue)) :
    (alookup "frame" kvs = some fv → getFrameStr (.dict kvs) = some fv) ∧
    (alookup "frame" kvs = none → alookup "textureRect" kvs = some fv →
      getFrameStr (.dict kvs) = some fv) ∧
    (alookup "frame" kvs = none → alookup "textureRect" kvs = none →
      getFrameStr (.dict kvs) = none) ∧
    ((∀ kvs', v ≠ .dict kvs') → getFrameStr v = some v) ∧
    (getFrameStr v = none →
      extractResults img (pre ++ (n, v) :: post) =
        extractResults img pre ++ extractResults img post) := by
  refine ⟨?_, ?_, ?_, ?_, ?_⟩
  · intro h
    simp only [getFrameStr, h]
  · intro h1 h2
    simp only [getFrameStr, h1, h2]
  · intro h1 h2
    simp only [getFrameStr, h1, h2]
  · intro h
    cases v with
    | dict kvs' => exact absurd rfl (h kvs')
    | str s => rfl
    | int n => rfl
    | arr vs => rfl
  · intro h
    have hnone : entryOutcome img n v = none := by
      unfold entryOutcome process_sprite
      rw [h]
      rfl
    unfold extractResults
    rw [List.filterMap_append]
    congr 1
    simp [List.filterMap_cons, hnone]

/-- C5 witness: concrete instances of each dispatch shape, and a
skipped entry in the middle of a run contributing no result while its
neighbours are processed. -/
theorem frame_key_dispatch_witness :
    getFrameStr (.dict [("frame", .str "R"), ("textureRect", .str "T")])
      = some (.str "R") ∧
    getFrameStr (.dict [("textureRect", .str "T")]) = some (.str "T") ∧
    getFrameStr (.dict [("other", .int 1)]) = none ∧
    getFrameStr (.str "{{0,0},{1,1}}") = some (.str "{{0,0},{1,1}}") ∧
    extractResults testImg ([("a", .str "{{0,0},{1,1}}")]
        ++ ("skipme", .dict [("other", .int 1)]) :: [("b", .str "{{1,0},{1,1}}")]) =
      extractResults testImg [("a", .str "{{0,0},{1,1}}")]
        ++ extractResults testImg [("b", .str "{{1,0},{1,1}}")] := by
  refine ⟨?_, ?_, ?_, ?_, ?_⟩
  · exact (frame_key_dispatch [("frame", .str "R"), ("textureRect", .str "T")]
      (.int 0) (.str "R") testImg "" [] []).1 rfl
  · exact (frame_key_dispatch [("textureRect", .str "T")]
      (.int 0) (.str "T") testImg "" [] []).2.1 rfl rfl
  · exact (frame_key_dispatch [("other", .int 1)]
      (.int 0) (.int 0) testImg "" [] []).2.2.1 rfl rfl
  · exact (frame_key_dispatch [] (.str "{{0,0},{1,1}}")
      (.int 0) testImg "" [] []).2.2.2.1 (fun _ h => nomatch h)
  · exact (frame_key_dispatch [] (.dict [("other", .int 1)])
      (.int 0) testImg "skipme" [("a", .str "{{0,0},{1,1}}")]
      [("b", .str "{{1,0},{1,1}}")]).2.2.2.2 rfl

theorem entryOutcome_isSome (img : PImage) (name : String) (v : PValue)
    (h : (getFrameStr v).isSome = true) : ∃ o, entryOutcome img name v = some o := by
  unfold entryOutcome process_sprite
  obtain ⟨fv, hfv⟩ := Option.isSome_iff_exists.mp h
  rw [hfv]
  cases fv with
  | str s =>
    dsimp only
    cases hp : parse_rect_string s with
    | error msg => exact ⟨.failure msg, rfl⟩
    | ok r =>
      dsimp only
      cases hc : cropRect img r with
      | error msg => exact ⟨.failure msg, rfl⟩
      | ok sprite => exact ⟨.success (sprite_filename name), rfl⟩
  | int n => exact ⟨.failure "AttributeError: object has no attribute 'strip'", rfl⟩
  | arr vs => exact ⟨.failure "AttributeError: object has no attribute 'strip'", rfl⟩
  | dict mkvs => exact ⟨.failure "AttributeError: object has no attribute 'strip'", rfl⟩

/-- C1: for a descriptor whose every entry carries frame data (one
`FrameRecord` per entry — entries with none are excluded from the
descriptor by the spec), the loop yields exactly one result per entry,
in descriptor order, each carrying that entry's name and determined by
that entry alone — so one entry's failure never disturbs the others. -/
theorem extract_one_result_per_record (img : PImage) (kvs : List (String × PValue))
    (h : ∀ e ∈ kvs, (getFrameStr e.2).isSome = true) :
    (extractResults img kvs).length = kvs.length ∧
    ∀ i, i < kvs.length → ∃ nm v o,
      kvs.get? i = some (nm, v) ∧
      (extractResults img kvs).get? i = some (nm, o) ∧
      entryOutcome img nm v = some o := by
  induction kvs with
  | nil =>
    refine ⟨rfl, ?_⟩
    intro i hi
    exact absurd hi (by simp)
  | cons e rest ih =>
    have he : (getFrameStr e.2).isSome = true := h e (by simp)
    obtain ⟨o, ho⟩ := entryOutcome_isSome img e.1 e.2 he
    have hcons : extractResults img (e :: rest) = (e.1, o) :: extractResults img rest := by
      unfold extractResults
      rw [List.filterMap_cons]
      rw [ho]
      rfl
    obtain ⟨ihlen, ihidx⟩ := ih (fun x hx => h x (by simp [hx]))
    constructor
    · rw [hcons]
      simp [ihlen]
    · intro i hi
      cases i with
      | zero =>
        refine ⟨e.1, e.2, o, by simp, ?_, ho⟩
        rw [hcons]
        rfl
      | succ j =>
        have hj : j < rest.length := by simpa using hi
        obtain ⟨nm, v, o', h1, h2, h3⟩ := ihidx j hj
        refine ⟨nm, v, o', by simpa using h1, ?_, h3⟩
        rw [hcons]
        simpa using h2

/-- C1 witness: a three-entry descriptor whose middle entry has a
malformed rect string yields exactly three results, in order, with the
middle one a `Failure` and its neighbours unaffected. -/
theorem extract_one_result_per_record_witness :
    (∀ e ∈ [(("a" : String), PValue.str "{{0,0},{2,2}}"), ("b", PValue.str "nope"),
        ("c", PValue.str "{{1,1},{1,1}}")], (getFrameStr e.2).isSome = true) ∧
    (extractResults testImg [(("a" : String), PValue.str "{{0,0},{2,2}}"),
        ("b", PValue.str "nope"), ("c", PValue.str "{{1,1},{1,1}}")]).length = 3 ∧
    extractResults testImg [(("a" : String), PValue.str "{{0,0},{2,2}}"),
        ("b", PValue.str "nope"), ("c", PValue.str "{{1,1},{1,1}}")] =
      [("a", .success "a.png"), ("b", .failure "Cannot parse rect string: nope"),
        ("c", .success "c.png")] := by
  refine ⟨by decide, ?_, by decide⟩
  exact (extract_one_result_per_record testImg
    [(("a" : String), PValue.str "{{0,0},{2,2}}"), ("b", PValue.str "nope"),
      ("c", PValue.str "{{1,1},{1,1}}")] (by decide)).1

/-- C6: for every rect `(x, y, w, h)` with `w > 0` and `h > 0`, the
crop `img.crop((x, y, x+w, y+h))` never raises, even when the box
extends beyond the image bounds: it returns a new `w × h` buffer whose
out-of-range region is filled with zero (transparent), per the
permissive crop policy. -/
theorem crop_permissive (img : PImage) (x y w h : ℤ) (hw : 0 < w) (hh : 0 < h) :
    ∃ out, crop img x y (x + w) (y + h) = .ok out ∧
      (out.width : ℤ) = w ∧ (out.height : ℤ) = h ∧
      ∀ i j, (x + i < 0 ∨ (img.width : ℤ) ≤ x + i ∨ y + j < 0 ∨ (img.height : ℤ) ≤ y + j) →
        out.pixel i j = 0 := by
  unfold crop
  rw [if_neg (by omega), if_neg (by omega)]
  refine ⟨_, rfl, ?_, ?_, ?_⟩
  · show (((x + w - x).toNat : ℕ) : ℤ) = w
    omega
  · show (((y + h - y).toNat : ℕ) : ℤ) = h
    omega
  · intro i j hd
    show (if 0 ≤ x + i ∧ x + i < (img.width : ℤ) ∧ 0 ≤ y + j ∧ y + j < (img.height : ℤ)
      then img.pixel (x + i) (y + j) else 0) = 0
    rw [if_neg]
    rintro ⟨h1, h2, h3, h4⟩
    omega

/-- C6 witness: cropping the rect `(1, 1, 5, 5)` out of the 4×4 test
image succeeds with a 5×5 buffer whose out-of-range pixels are zero. -/
theorem crop_permissive_witness :
    (0 : ℤ) < 5 ∧ ∃ out, crop testImg 1 1 (1 + 5) (1 + 5) = .ok out ∧
      (out.width : ℤ) = 5 ∧ (out.height : ℤ) = 5 ∧
      ∀ i j, (1 + i < 0 ∨ (testImg.width : ℤ) ≤ 1 + i ∨ 1 + j < 0 ∨
          (testImg.height : ℤ) ≤ 1 + j) →
        out.pixel i j = 0 :=
  ⟨by decide, crop_permissive testImg 1 1 5 5 (by decide) (by decide)⟩

/-- Total extractor for a crop known to succeed (used to name the
buffers in concrete instances). -/
def cropOk (img : PImage) (r : ℤ × ℤ × ℤ × ℤ) : PImage :=
  match cropRect img r with
  | .ok c => c
  | .error _ => img

/-- C7: the derived output filename is `Path(name).stem + ".png"` —
directory components and any existing extension stripped, `.png`
appended; when two different sprite names collapse to the same derived
filename, both entries record `Success` with that filename and the
later write silently overwrites the earlier in the output directory —
no error is raised. -/
theorem filename_collision (img : PImage) (n1 n2 s1 s2 : String)
    (r1 r2 : ℤ × ℤ × ℤ × ℤ) (c1 c2 : PImage)
    (hne : n1 ≠ n2) (hstem : pyStemChars n1 = pyStemChars n2)
    (hp1 : parse_rect_string s1 = .ok r1) (hp2 : parse_rect_string s2 = .ok r2)
    (hc1 : cropRect img r1 = .ok c1) (hc2 : cropRect img r2 = .ok c2) :
    sprite_filename n1 = String.mk (pyStemChars n1) ++ ".png" ∧
    extractResults img [(n1, .str s1), (n2, .str s2)] =
      [(n1, .success (sprite_filename n1)), (n2, .success (sprite_filename n1))] ∧
    finalStore img [(n1, .str s1), (n2, .str s2)] = [(sprite_filename n1, c2)] := by
  have hf2 : sprite_filename n2 = sprite_filename n1 := by
    unfold sprite_filename
    rw [hstem]
  have hps1 : process_sprite img n1 (.str s1)
      = some (.success (sprite_filename n1), some (sprite_filename n1, c1)) := by
    unfold process_sprite getFrameStr
    dsimp only
    rw [hp1]
    dsimp only
    rw [hc1]
  have hps2 : process_sprite img n2 (.str s2)
      = some (.success (sprite_filename n1), some (sprite_filename n1, c2)) := by
    unfold process_sprite getFrameStr
    dsimp only
    rw [hp2]
    dsimp only
    rw [hc2, hf2]
  refine ⟨rfl, ?_, ?_⟩
  · unfold extractResults entryOutcome
    simp only [List.filterMap_cons, hps1, hps2, Option.map_some', List.filterMap_nil]
  · unfold finalStore
    simp only [List.foldl_cons, List.foldl_nil, hps1, hps2]
    unfold storeWrite
    simp

/-- C7 witness: `"idle/1"` and `"1"` both derive `"1.png"`; both
record `Success`, and the directory ends with the second sprite's
buffer under `"1.png"`. -/
theorem filename_collision_witness :
    "idle/1" ≠ "1" ∧ pyStemChars "idle/1" = pyStemChars "1" ∧
    extractResults testImg [("idle/1", .str "{{0,0},{1,1}}"), ("1", .str "{{1,0},{1,1}}")] =
      [("idle/1", .success "1.png"), ("1", .success "1.png")] ∧
    finalStore testImg [("idle/1", .str "{{0,0},{1,1}}"), ("1", .str "{{1,0},{1,1}}")] =
      [("1.png", cropOk testImg (1, 0, 1, 1))] := by
  have h := filename_collision testImg "idle/1" "1" "{{0,0},{1,1}}" "{{1,0},{1,1}}"
    (0, 0, 1, 1) (1, 0, 1, 1) (cropOk testImg (0, 0, 1, 1)) (cropOk testImg (1, 0, 1, 1))
    (by decide) (by decide) (by decide) (by decide) rfl rfl
  have hf : sprite_filename "idle/1" = "1.png" := by decide
  refine ⟨by decide, by decide, ?_, ?_⟩
  · rw [← hf]
    exact h.2.1
  · rw [← hf]
    exact h.2.2

/-- C9 counterexample: the zero-width rect `"{{0,0},{0,5}}"` parses
fine and the entry records a `Success`, not a `Failure`: the code
never validates `width > 0 ∧ height > 0`; the crop of an empty box
succeeds (Pillow only rejects inverted boxes) and the save is
accepted. -/
theorem zero_rect_cex :
    parse_rect_string "{{0,0},{0,5}}" = .ok (0, 0, 0, 5) ∧
    entryOutcome testImg "s" (.str "{{0,0},{0,5}}") = some (.success "s.png") :=
  ⟨by decide, by decide⟩

/-- C9 amended: the code performs no width/height validation.  A
parsed rect with negative width (or non-negative width and negative
height) makes the crop raise `ValueError`, caught as a per-entry
`Failure`; a rect with width or height zero is not rejected — the
entry proceeds through the empty crop and records a `Success` like any
non-negative rect.  In every case the entry yields some outcome: the
run is never aborted. -/
theorem zero_rect_entry (img : PImage) (name s : String) (x y w h : ℤ)
    (hparse : parse_rect_string s = .ok (x, y, w, h)) :
    (w < 0 → entryOutcome img name (.str s) =
      some (.failure "ValueError: Coordinate 'right' is less than 'left'")) ∧
    (0 ≤ w → h < 0 → entryOutcome img name (.str s) =
      some (.failure "ValueError: Coordinate 'lower' is less than 'upper'")) ∧
    (0 ≤ w → 0 ≤ h → entryOutcome img name (.str s) =
      some (.success (sprite_filename name))) ∧
    entryOutcome img name (.str s) ≠ none := by
  have hbase : ∀ (res : Except String PImage), cropRect img (x, y, w, h) = res →
      entryOutcome img name (.str s) = some (match res with
        | .error e => .failure e
        | .ok _ => .success (sprite_filename name)) := by
    intro res hres
    unfold entryOutcome process_sprite getFrameStr
    dsimp only
    rw [hparse]
    dsimp only
    rw [hres]
    cases res <;> rfl
  have h1 : w < 0 → entryOutcome img name (.str s) =
      some (.failure "ValueError: Coordinate 'right' is less than 'left'") := by
    intro hw
    have hres : cropRect img (x, y, w, h)
        = .error "ValueError: Coordinate 'right' is less than 'left'" := by
      unfold cropRect crop
      rw [if_pos (by dsimp only; omega)]
    exact hbase _ hres
  have h2 : 0 ≤ w → h < 0 → entryOutcome img name (.str s) =
      some (.failure "ValueError: Coordinate 'lower' is less than 'upper'") := by
    intro hw hh
    have hres : cropRect img (x, y, w, h)
        = .error "ValueError: Coordinate 'lower' is less than 'upper'" := by
      unfold cropRect crop
      rw [if_neg (by dsimp only; omega), if_pos (by dsimp only; omega)]
    exact hbase _ hres
  have h3 : 0 ≤ w → 0 ≤ h → entryOutcome img name (.str s) =
      some (.success (sprite_filename name)) := by
    intro hw hh
    have hres : ∃ c, cropRect img (x, y, w, h) = .ok c := by
      unfold cropRect crop
      rw [if_neg (by dsimp only; omega), if_neg (by dsimp only; omega)]
      exact ⟨_, rfl⟩
    obtain ⟨c, hc⟩ := hres
    exact hbase _ hc
  refine ⟨h1, h2, h3, ?_⟩
  rcases lt_or_ge w 0 with hw | hw
  · rw [h1 hw]; exact Option.noConfusion
  · rcases lt_or_ge h 0 with hh | hh
    · rw [h2 hw hh]; exact Option.noConfusion
    · rw [h3 hw hh]; exact Option.noConfusion

/-- C9 amended witness: the zero-width rect `"{{0,0},{0,5}}"` records
a `Success`, and the negative-width rect `"{{0,0},{-3,5}}"` records a
per-entry `Failure`. -/
theorem zero_rect_entry_witness :
    parse_rect_string "{{0,0},{0,5}}" = .ok (0, 0, 0, 5) ∧ (0 : ℤ) ≤ 0 ∧ (0 : ℤ) ≤ 5 ∧
    entryOutcome testImg "s" (.str "{{0,0},{0,5}}")
      = some (.success (sprite_filename "s")) ∧
    parse_rect_string "{{0,0},{-3,5}}" = .ok (0, 0, -3, 5) ∧ (-3 : ℤ) < 0 ∧
    entryOutcome testImg "t" (.str "{{0,0},{-3,5}}")
      = some (.failure "ValueError: Coordinate 'right' is less than 'left'") :=
  ⟨by decide, by decide, by decide,
    (zero_rect_entry testImg "s" "{{0,0},{0,5}}" 0 0 0 5 (by decide)).2.2.1
      (by decide) (by decide),
    by decide, by decide,
    (zero_rect_entry testImg "t" "{{0,0},{-3,5}}" 0 0 (-3) 5 (by decide)).1 (by decide)⟩

end MHwPlistSplitter
